import Mathlib

/-!
Verification development for the reform-service squat-analysis core
(src/exercise_1/calculation/calculation.py,
 src/exercise_1/llm_form_analysis/llm_form_analysis.py,
 src/exercise_1/exercise.py).

Modelling conventions (shallow embedding):
* Python floats are modelled as exact rationals (ℚ); the one place where the
  source computes a square root (rep-consistency standard deviation,
  `variance ** 0.5`) is modelled over ℝ with Real.sqrt.
* The transcendental front end of the angle extractor
  (`math.degrees(math.atan2(-dy, dx))`) is not rational-valued, so the
  embedded angle functions take that raw angle-from-horizontal value (in
  degrees, in atan2 range (-180, 180]) as their input; everything from the
  wrap-into-[0,360) step onward is translated line by line from the source.
* Python `int(x)` (truncation toward zero) is modelled by pyInt below.
* Python lists of samples that may be None are List (Option ℚ).
-/

set_option maxRecDepth 100000

/-- Python int(x): truncation of a rational toward zero. -/
def pyInt (q : ℚ) : ℤ :=
  if q < 0 then -Int.floor (-q) else Int.floor q

/-! ## calculation.py: segment-angle folding (get_segment_angle, get_ankle_segment_angle)

The source computes `angle_from_horizontal = degrees(atan2(-dy, dx))`,
wraps negatives into [0, 360), then folds by quadrant.  The embedded
functions take the raw angle_from_horizontal value as input. -/

/-- get_segment_angle (calculation.py lines 9-23), from the
atan2 result onward: wrap negatives by +360, then fold by quadrant.
Note the last branch of the source is `angle_from_horizontal - 270`. -/
def get_segment_angle (raw : ℚ) : ℚ :=
  let v := if raw < 0 then raw + 360 else raw
  if v ≤ 90 then 90 - v
  else if v ≤ 180 then v - 90
  else if v ≤ 270 then 270 - v
  else v - 270

/-- get_ankle_segment_angle (calculation.py lines 62-76), from the
atan2 result onward: wrap negatives by +360, then fold by quadrant.
Its last branch is `360 - angle_from_horizontal`. -/
def get_ankle_segment_angle (raw : ℚ) : ℚ :=
  let v := if raw < 0 then raw + 360 else raw
  if v ≤ 90 then v
  else if v ≤ 180 then 180 - v
  else if v ≤ 270 then 270 - v
  else 360 - v

/-- The quadrant folding exactly as the spec sentence for claim C5 words it:
values in (0,90] give 90-v; (90,180] give v-90; (180,270] give 270-v; and
(270,360] give 360-v.  (Definition written from the spec, for comparison
with the source function get_segment_angle.) -/
def segmentFoldSpecClaim (v : ℚ) : ℚ :=
  if v ≤ 90 then 90 - v
  else if v ≤ 180 then v - 90
  else if v ≤ 270 then 270 - v
  else 360 - v

/-- The amended quadrant folding: same as the claim except the last
quadrant, where the source returns v - 270 rather than 360 - v. -/
def segmentFoldAmended (v : ℚ) : ℚ :=
  if v ≤ 90 then 90 - v
  else if v ≤ 180 then v - 90
  else if v ≤ 270 then 270 - v
  else v - 270

/-- Wrap a raw atan2 degree value into [0, 360), as both source functions do. -/
def wrap360 (raw : ℚ) : ℚ :=
  if raw < 0 then raw + 360 else raw

/-- calculate_torso_angle_per_frame (calculation.py lines 26-41).
A frame is none when no landmarks were detected; otherwise it carries the
raw left and right atan2 angle-from-horizontal values for the hip-shoulder
segments, and the output is the average of the two folded segment angles.
(The None checks on the two per-side angles in the source are dead code:
get_segment_angle always returns a value.) -/
def calculate_torso_angle_per_frame (frames : List (Option (ℚ × ℚ))) : List (Option ℚ) :=
  frames.map (fun o => o.map (fun lr => (get_segment_angle lr.1 + get_segment_angle lr.2) / 2))

/-- calculate_quad_angle_per_frame (calculation.py lines 44-59): same shape
as the torso computation, applied to the hip-knee segment raw angles. -/
def calculate_quad_angle_per_frame (frames : List (Option (ℚ × ℚ))) : List (Option ℚ) :=
  frames.map (fun o => o.map (fun lr => (get_segment_angle lr.1 + get_segment_angle lr.2) / 2))

/-- calculate_ankle_angle_per_frame (calculation.py lines 79-94): average of
the two folded heel-knee segment angles. -/
def calculate_ankle_angle_per_frame (frames : List (Option (ℚ × ℚ))) : List (Option ℚ) :=
  frames.map (fun o => o.map (fun lr => (get_ankle_segment_angle lr.1 + get_ankle_segment_angle lr.2) / 2))

/-! ## llm_form_analysis.py: rep segmentation (detect_squat_phases and helpers) -/

/-- The list comprehension
`[(i, a) for i, a in enumerate(quad_angles_per_frame) if a is not None]`
(llm_form_analysis.py line 91), with an explicit running frame index. -/
def validAngles : List (Option ℚ) → ℕ → List (ℕ × ℚ)
  | [], _ => []
  | none :: rest, i => validAngles rest (i + 1)
  | some a :: rest, i => (i, a) :: validAngles rest (i + 1)

/-- Python min over a list, 0 on the empty list (the source only calls it on
nonempty lists). -/
def listMin : List ℚ → ℚ
  | [] => 0
  | [a] => a
  | a :: b :: rest => min a (listMin (b :: rest))

/-- The helper named with a single underscore prefix in the source,
calculate_baseline (llm_form_analysis.py lines 70-74): min of the first 10
and last 10 valid angles when more than 20 samples exist, else min of all. -/
def calcBaseline (va : List (ℕ × ℚ)) : ℚ :=
  if 20 < va.length then
    listMin ((va.take 10).map Prod.snd ++ (va.drop (va.length - 10)).map Prod.snd)
  else
    listMin (va.map Prod.snd)

/-- is_local_max (llm_form_analysis.py lines 4-11): index i is a strict local
maximum over the 5-sample window i-2..i+2 and at least min_height; indices
within 2 of either boundary are rejected. -/
def isLocalMax (i : ℕ) (va : List (ℕ × ℚ)) (minHeight : ℚ) : Bool :=
  if i < 2 ∨ va.length ≤ i + 2 then false
  else
    let prev2 := (va.getD (i - 2) (0, 0)).2
    let prev1 := (va.getD (i - 1) (0, 0)).2
    let curr := (va.getD i (0, 0)).2
    let next1 := (va.getD (i + 1) (0, 0)).2
    let next2 := (va.getD (i + 2) (0, 0)).2
    decide (prev1 < curr ∧ next1 < curr ∧ minHeight ≤ curr ∧ prev2 < curr ∧ next2 < curr)

/-- The candidate list of find_peaks (llm_form_analysis.py lines 30-31):
`[(i, va[i]) for i in range(2, len(va) - 2) if _is_local_max(i, va, min_height)]`.
range(2, n-2) is List.range' 2 (n - 4). -/
def peakCandidates (va : List (ℕ × ℚ)) (minHeight : ℚ) : List (ℕ × (ℕ × ℚ)) :=
  (List.range' 2 (va.length - 4)).filterMap
    (fun i => if isLocalMax i va minHeight then some (i, va.getD i (0, 0)) else none)

/-- The scan loop of filter_peaks_by_distance (llm_form_analysis.py lines
19-24), with `last` the currently accepted final peak (peaks[-1]): a far
candidate is appended; a close one replaces the accepted peak only when its
angle is strictly greater, else it is dropped. -/
def dedupGo (minDistance : ℕ) : (ℕ × (ℕ × ℚ)) → List (ℕ × (ℕ × ℚ)) → List (ℕ × (ℕ × ℚ))
  | last, [] => [last]
  | last, c :: cs =>
    if (minDistance : ℤ) ≤ (c.1 : ℤ) - (last.1 : ℤ) then last :: dedupGo minDistance c cs
    else if last.2.2 < c.2.2 then dedupGo minDistance c cs
    else dedupGo minDistance last cs

/-- filter_peaks_by_distance (llm_form_analysis.py lines 14-25).  The Python
loop appends to or mutates the last element of `peaks`; dedupGo is that loop
with the frozen prefix factored out.  Returns `[p[1] for p in peaks]`. -/
def filter_peaks_by_distance (candidates : List (ℕ × (ℕ × ℚ))) (minDistance : ℕ) : List (ℕ × ℚ) :=
  match candidates with
  | [] => []
  | c :: cs => (dedupGo minDistance c cs).map Prod.snd

/-- find_peaks (llm_form_analysis.py lines 28-32) with its default
min_distance of 30. -/
def find_peaks (va : List (ℕ × ℚ)) (minHeight : ℚ) (minDistance : ℕ := 30) : List (ℕ × ℚ) :=
  filter_peaks_by_distance (peakCandidates va minHeight) minDistance

/-- The scan loop of filter_bounce_reps (llm_form_analysis.py lines 40-46).
The source compares consecutive elements of the INPUT list and either
replaces filtered[-1] or appends; in both cases filtered[-1] becomes the
current input element, so the loop is this recursion with `prev` both the
previous input element and the accepted final element. -/
def bounceGo (bounceThreshold : ℤ) : (ℕ × (ℕ × ℚ)) → List (ℕ × (ℕ × ℚ)) → List (ℕ × (ℕ × ℚ))
  | prev, [] => [prev]
  | prev, c :: cs =>
    if (c.1 : ℤ) - (prev.1 : ℤ) < bounceThreshold ∧ (9 / 10 : ℚ) * prev.2.2 ≤ c.2.2 then
      bounceGo bounceThreshold c cs
    else
      prev :: bounceGo bounceThreshold c cs

/-- filter_bounce_reps (llm_form_analysis.py lines 35-47).  Python float 0.9
is modelled as 9/10. -/
def filter_bounce_reps (peaksWithIndices : List (ℕ × (ℕ × ℚ))) (bounceThreshold : ℤ) :
    List (ℕ × (ℕ × ℚ)) :=
  match peaksWithIndices with
  | [] => []
  | p :: ps => bounceGo bounceThreshold p ps

/-- The backward scan of find_rep_start_end (llm_form_analysis.py lines
54-57): `for i in range(peak_idx - 1, -1, -1)`, stopping at the first
(i.e. greatest) index below the threshold.  lastBelowBefore va th k scans
k-1, k-2, ..., 0. -/
def lastBelowBefore (va : List (ℕ × ℚ)) (th : ℚ) : ℕ → Option ℕ
  | 0 => none
  | k + 1 => if (va.getD k (0, 0)).2 < th then some k else lastBelowBefore va th k

/-- Position of the first entry of a list whose angle is below the
threshold. -/
def firstBelowIn : List (ℕ × ℚ) → ℚ → Option ℕ
  | [], _ => none
  | p :: rest, th => if p.2 < th then some 0 else (firstBelowIn rest th).map (· + 1)

/-- The forward scan of find_rep_start_end (llm_form_analysis.py lines
61-64): first index i with peak_idx + 1 ≤ i < len whose angle is below the
threshold. -/
def firstBelowFrom (va : List (ℕ × ℚ)) (th : ℚ) (j : ℕ) : Option ℕ :=
  (firstBelowIn (va.drop j) th).map (j + ·)

/-- find_rep_start_end (llm_form_analysis.py lines 50-67).  peak_idx is
recovered with next(i for i, (f, _) in enumerate(va) if f == peak_frame),
i.e. List.findIdx (the source raises if the frame is absent; findIdx then
returns va.length and the getD defaults apply — unreachable from
detect_squat_phases).  The baseline argument is accepted and unused, as in
the source. -/
def find_rep_start_end (va : List (ℕ × ℚ)) (peakFrame : ℕ) (_baseline th : ℚ) : ℕ × ℕ :=
  let peakIdx := va.findIdx (fun p => p.1 == peakFrame)
  let startFrame :=
    match lastBelowBefore va th peakIdx with
    | some i => if i + 1 ≤ peakIdx then (va.getD (i + 1) (0, 0)).1 else peakFrame
    | none => (va.getD 0 (0, 0)).1
  let endFrame :=
    match firstBelowFrom va th (peakIdx + 1) with
    | some i => if peakIdx ≤ i - 1 then (va.getD (i - 1) (0, 0)).1 else peakFrame
    | none => (va.getD (va.length - 1) (0, 0)).1
  (startFrame, endFrame)

/-- A detected repetition: start, bottom and end frame indices. -/
structure SquatRep where
  start_frame : ℕ
  bottom_frame : ℕ
  end_frame : ℕ
deriving DecidableEq, Repr

/-- build_reps_from_peaks (llm_form_analysis.py lines 77-84).  The None
checks on start/end are dead code in the source (both defaults are set), so
only start_frame < end_frame filters. -/
def build_reps_from_peaks (filteredPeaks : List (ℕ × (ℕ × ℚ))) (va : List (ℕ × ℚ))
    (baseline th : ℚ) : List SquatRep :=
  filteredPeaks.filterMap (fun pk =>
    let se := find_rep_start_end va pk.2.1 baseline th
    if se.1 < se.2 then some ⟨se.1, pk.2.1, se.2⟩ else none)

/-- detect_squat_phases (llm_form_analysis.py lines 87-102), returning the
reps list.  The two early returns (empty input / all None, and empty
valid_angles) are both the valid-list-empty test. -/
def detect_squat_phases (quadAnglesPerFrame : List (Option ℚ)) (fps : ℚ := 30) : List SquatRep :=
  let valid := validAngles quadAnglesPerFrame 0
  if valid = [] then []
  else
    let baseline := calcBaseline valid
    let squatThreshold := baseline + 20
    let peaks := find_peaks valid squatThreshold
    if peaks = [] then []
    else
      let bounceThresholdFrames := pyInt (fps * 1)
      let peaksWithIndices := peaks.map (fun p => (valid.findIdx (fun q => q.1 == p.1), p))
      let filteredPeaks := filter_bounce_reps peaksWithIndices bounceThresholdFrames
      build_reps_from_peaks filteredPeaks valid baseline squatThreshold

/-- filter_to_active_phases (llm_form_analysis.py lines 105-115): with no
reps (or no active frames) the torso series is returned unchanged, else the
concatenation of the per-rep frame windows, indexing out of range giving
None. -/
def filter_to_active_phases (torsoAnglesPerFrame quadAnglesPerFrame : List (Option ℚ)) :
    List (Option ℚ) :=
  let reps := detect_squat_phases quadAnglesPerFrame
  if reps = [] then torsoAnglesPerFrame
  else
    let activeFrames := reps.flatMap (fun r => List.range' r.start_frame (r.end_frame + 1 - r.start_frame))
    if activeFrames = [] then torsoAnglesPerFrame
    else activeFrames.map (fun i => if i < torsoAnglesPerFrame.length then torsoAnglesPerFrame.getD i none else none)

/-- Exercise1 extract_active_angles (exercise.py lines 134-145): identity
when phases carry no reps, else the concatenated per-rep windows. -/
def extract_active_angles (angles : List (Option ℚ)) (reps : List SquatRep) : List (Option ℚ) :=
  if reps = [] then angles
  else
    (reps.flatMap (fun r => List.range' r.start_frame (r.end_frame + 1 - r.start_frame))).map
      (fun i => if i < angles.length then angles.getD i none else none)

/-! ## llm_form_analysis.py: rep-consistency analysis (modelled over ℝ because
the source computes a standard deviation, variance ** 0.5).  Status/score
pairs are modelled; messages carry no logic. -/

/-- calculate_consistency_metrics (llm_form_analysis.py lines 269-277):
(mean, std dev, coefficient of variation), all None for fewer than 2 values,
cv None when the mean is zero. -/
noncomputable def calculate_consistency_metrics (vals : List ℝ) :
    Option ℝ × Option ℝ × Option ℝ :=
  if vals.length < 2 then (none, none, none)
  else
    let meanVal := vals.sum / (vals.length : ℝ)
    let variance := (vals.map (fun x => (x - meanVal) ^ 2)).sum / (vals.length : ℝ)
    let stdDev := Real.sqrt variance
    let cv := if meanVal ≠ 0 then some (stdDev / meanVal * 100) else none
    (some meanVal, some stdDev, cv)

/-- determine_consistency_status (llm_form_analysis.py lines 280-289):
cv None gives error/0; cv < 5 good/100; cv < 10 warning/75; else poor/50. -/
noncomputable def determine_consistency_status (cv : Option ℝ) : String × ℚ :=
  match cv with
  | none => ("error", 0)
  | some c => if c < 5 then ("good", 100) else if c < 10 then ("warning", 75) else ("poor", 50)

/-- analyze_single_consistency (llm_form_analysis.py lines 298-302): the
source guards with Python truthiness `if cv`, which is false both for cv
None and for cv equal to 0.0, in which case it returns the error result
with score 0. -/
noncomputable def analyze_single_consistency (values : List ℝ) : String × ℚ :=
  let metrics := calculate_consistency_metrics values
  match metrics.2.2 with
  | some c => if c ≠ 0 then determine_consistency_status (some c) else ("error", 0)
  | none => ("error", 0)

/-! ## llm_form_analysis.py: movement-onset detection for glute dominance -/

/-- calculate_smoothed_baseline (llm_form_analysis.py lines 333-337):
average of the valid entries among frames start..start+window-1, else the
start entry, else 0. -/
def calculate_smoothed_baseline (angles : List (Option ℚ)) (startFrame window : ℕ) : ℚ :=
  let valid := (List.range' startFrame (min (startFrame + window) angles.length - startFrame)).filterMap
    (fun i => angles.getD i none)
  if valid ≠ [] then valid.sum / (valid.length : ℚ)
  else
    match angles.getD startFrame none with
    | some a => a
    | none => 0

/-- detect_movement_start_velocity (llm_form_analysis.py lines 340-351).
Note the source sets velocity_threshold = 2.0 / fps and compares the
velocity |Δangle|*fps against it. -/
def detect_movement_start_velocity (angles : List (Option ℚ)) (startFrame endFrame : ℕ)
    (fps : ℚ) : ℕ :=
  if angles.length ≤ startFrame ∨ angles.length ≤ endFrame ∨ endFrame ≤ startFrame then startFrame
  else
    let baseline := calculate_smoothed_baseline angles startFrame 3
    let velocityThreshold := 2 / fps
    match (List.range' (startFrame + 1) (min (endFrame + 1) angles.length - (startFrame + 1))).find?
      (fun i =>
        match angles.getD i none, angles.getD (i - 1) none with
        | some a, some b => decide (velocityThreshold ≤ |a - b| * fps ∧ 3 ≤ |a - baseline|)
        | _, _ => false) with
    | some i => i
    | none => startFrame

/-- The onset condition exactly as the spec sentence for claim C8 words it:
frame i is an onset frame when |angle[i] - angle[i-1]| * fps ≥ 2.0 degrees
per second and |angle[i] - baseline| ≥ 3.0 degrees.  (Written from the
spec, for comparison with detect_movement_start_velocity.) -/
def onsetSpecCond (angles : List (Option ℚ)) (fps baseline : ℚ) (i : ℕ) : Bool :=
  match angles.getD i none, angles.getD (i - 1) none with
  | some a, some b => decide (2 ≤ |a - b| * fps ∧ 3 ≤ |a - baseline|)
  | _, _ => false

/-! ## llm_form_analysis.py: final-score aggregation -/

/-- The metric names appearing in the form-analysis mapping handed to
calculate_final_score by Exercise1.analyze_form (exercise.py lines 93-123). -/
inductive MetricKey where
  | torso_angle | quad_angle | ankle_angle
  | torso_asymmetry | quad_asymmetry | ankle_asymmetry
  | rep_consistency | glute_dominance | knee_valgus
deriving DecidableEq, Repr

/-- The form-analysis mapping as consumed by calculate_final_score, reduced
to each metric's score channel: outer none = the key is absent from the
mapping, inner none = the metric result carries no score (error state). -/
structure FormAnalysis where
  torso_angle : Option (Option ℚ)
  quad_angle : Option (Option ℚ)
  ankle_angle : Option (Option ℚ)
  torso_asymmetry : Option (Option ℚ)
  quad_asymmetry : Option (Option ℚ)
  ankle_asymmetry : Option (Option ℚ)
  rep_consistency : Option (Option ℚ)
  glute_dominance : Option (Option ℚ)
  knee_valgus : Option (Option ℚ)
deriving DecidableEq, Repr

/-- form_analysis.get(key): the dict lookup in calculate_final_score. -/
def getMetric (fa : FormAnalysis) : MetricKey → Option (Option ℚ)
  | .torso_angle => fa.torso_angle
  | .quad_angle => fa.quad_angle
  | .ankle_angle => fa.ankle_angle
  | .torso_asymmetry => fa.torso_asymmetry
  | .quad_asymmetry => fa.quad_asymmetry
  | .ankle_asymmetry => fa.ankle_asymmetry
  | .rep_consistency => fa.rep_consistency
  | .glute_dominance => fa.glute_dominance
  | .knee_valgus => fa.knee_valgus

/-- The weights dict of calculate_final_score (llm_form_analysis.py lines
496-497), in insertion order. -/
def finalWeights : List (MetricKey × ℚ) :=
  [(.torso_angle, 25 / 100), (.quad_angle, 25 / 100), (.glute_dominance, 12 / 100),
   (.rep_consistency, 18 / 100), (.torso_asymmetry, 8 / 100), (.quad_asymmetry, 7 / 100),
   (.ankle_asymmetry, 5 / 100)]

/-- determine_grade (llm_form_analysis.py lines 321-330). -/
def determine_grade (finalScore : ℤ) : String :=
  if 90 ≤ finalScore then "Excellent"
  else if 75 ≤ finalScore then "Good"
  else if 60 ≤ finalScore then "Fair"
  else "Needs Improvement"

/-- The result record of calculate_final_score. -/
structure FinalScore where
  final_score : ℤ
  grade : String
  component_scores : List (MetricKey × ℚ)
  weights : List (MetricKey × ℚ)
deriving DecidableEq, Repr

/-- One iteration of the loop in calculate_final_score: accumulate
(weighted_sum, total_weight, component_scores). -/
def finalScoreStep (fa : FormAnalysis) (acc : ℚ × ℚ × List (MetricKey × ℚ))
    (kw : MetricKey × ℚ) : ℚ × ℚ × List (MetricKey × ℚ) :=
  match getMetric fa kw.1 with
  | some (some s) => (acc.1 + s * kw.2, acc.2.1 + kw.2, acc.2.2 ++ [(kw.1, s)])
  | _ => acc

/-- calculate_final_score (llm_form_analysis.py lines 494-510): iterate the
weights in insertion order, include a metric only when the mapping has the
key and its score is not None, final_score = int(weighted_sum/total_weight)
when total_weight > 0 else 0. -/
def calculate_final_score (fa : FormAnalysis) : FinalScore :=
  let acc := finalWeights.foldl (finalScoreStep fa) (0, 0, [])
  let finalScore := if 0 < acc.2.1 then pyInt (acc.1 / acc.2.1) else 0
  { final_score := finalScore, grade := determine_grade finalScore,
    component_scores := acc.2.2, weights := finalWeights }

/-- The score of a metric when present and non-absent, as the spec formula
selects metrics: none when the key is absent or the score channel is None. -/
def scoreOf (fa : FormAnalysis) (k : MetricKey) : Option ℚ :=
  match getMetric fa k with
  | some (some s) => some s
  | _ => none

/-- The denominator of the spec formula for claim C1: the sum of the
weights of the metrics with a present score. -/
def presentWeight (fa : FormAnalysis) : ℚ :=
  (finalWeights.filterMap (fun kw => (scoreOf fa kw.1).map (fun _ => kw.2))).sum

/-- The numerator of the spec formula for claim C1: the sum of score times
weight over the metrics with a present score. -/
def presentWeightedSum (fa : FormAnalysis) : ℚ :=
  (finalWeights.filterMap (fun kw => (scoreOf fa kw.1).map (fun s => s * kw.2))).sum

/-! ## Concrete inputs used by counterexamples and witnesses -/

/-- A quad-angle series (46 frames, all valid) whose signal stays above the
squat threshold between two deduplicated peaks at frames 12 and 42. -/
def overlapQuad : List (Option ℚ) :=
  (List.range 46).map (fun i => some (
    if i ≤ 9 then 0
    else if i = 10 then 30 else if i = 11 then 40 else if i = 12 then 50
    else if i = 13 then 40 else if i = 14 then 30
    else if i ≤ 40 then 25
    else if i = 41 then 30 else if i = 42 then 50 else if i = 43 then 30
    else 0))

/-- A quad-angle series (71 frames, all valid) with candidate peaks at
frames 50 (angle 50) and 60 (angle 48), ten frames apart. -/
def closePeaksQuad : List (Option ℚ) :=
  (List.range 71).map (fun i => some (
    if i = 49 ∨ i = 51 then 30 else if i = 50 then 50
    else if i = 59 ∨ i = 61 then 30 else if i = 60 then 48
    else 0))

/-- The angle series of the claim C8 failing input: steps of 0.9 degrees
per frame at 2 frames per second (velocity 1.8 degrees per second). -/
def slowDriftAngles : List (Option ℚ) :=
  [some 0, some (9/10), some (9/5), some (27/10), some (18/5), some (9/2)]

/-- Form analysis with torso 100, quad 100, every other metric in error
state (score channel None) or absent (the claim C1 example). -/
def faTwoHundreds : FormAnalysis :=
  { torso_angle := some (some 100), quad_angle := some (some 100),
    ankle_angle := some (some 100),
    torso_asymmetry := some none, quad_asymmetry := some none,
    ankle_asymmetry := some none, rep_consistency := none,
    glute_dominance := none, knee_valgus := none }

/-- A copy of faTwoHundreds with the unweighted ankle_angle and knee_valgus
entries changed. -/
def faTwoHundredsB : FormAnalysis :=
  { faTwoHundreds with ankle_angle := none, knee_valgus := some (some 50) }

/-- Form analysis with torso 100, quad 75 and nothing else present: the
weighted average is 87.5, where truncation and rounding differ. -/
def faHalfway : FormAnalysis :=
  { torso_angle := some (some 100), quad_angle := some (some 75),
    ankle_angle := none, torso_asymmetry := none, quad_asymmetry := none,
    ankle_asymmetry := none, rep_consistency := none,
    glute_dominance := none, knee_valgus := none }


/-! ## Helper lemmas -/

theorem get_segment_angle_bounds (raw : ℚ) (h1 : -180 < raw) (h2 : raw ≤ 180) :
    0 ≤ get_segment_angle raw ∧ get_segment_angle raw ≤ 90 := by
  simp only [get_segment_angle]
  split_ifs <;> constructor <;> linarith

theorem get_ankle_segment_angle_bounds (raw : ℚ) (h1 : -180 < raw) (h2 : raw ≤ 180) :
    0 ≤ get_ankle_segment_angle raw ∧ get_ankle_segment_angle raw ≤ 90 := by
  simp only [get_ankle_segment_angle]
  split_ifs <;> constructor <;> linarith

/-! ## Claim C5 -/

/-- C5 counterexample: for the raw atan2 angle -30 degrees (a point pair
with direction vector 30 degrees below the positive x axis), the wrapped
angle is 330, the source returns 330 - 270 = 60, but the folding claimed by
the spec gives 360 - 330 = 30. -/
theorem c5_counterexample :
    get_segment_angle (-30) = 60 ∧ wrap360 (-30) = 330 ∧
    segmentFoldSpecClaim (wrap360 (-30)) = 30 ∧
    get_segment_angle (-30) ≠ segmentFoldSpecClaim (wrap360 (-30)) := by
  with_unfolding_all decide

/-- C5 amended: for every raw atan2 angle in (-180, 180], the torso/quad
segment angle is the quadrant folding of the wrapped angle v with
v in [0,90] giving 90-v, (90,180] giving v-90, (180,270] giving 270-v, and
(270,360) giving v - 270 (not 360 - v as the spec claims). -/
theorem c5_fold_amended (raw : ℚ) (h1 : -180 < raw) (h2 : raw ≤ 180) :
    (wrap360 raw ≤ 90 → get_segment_angle raw = 90 - wrap360 raw) ∧
    (90 < wrap360 raw → wrap360 raw ≤ 180 → get_segment_angle raw = wrap360 raw - 90) ∧
    (180 < wrap360 raw → wrap360 raw ≤ 270 → get_segment_angle raw = 270 - wrap360 raw) ∧
    (270 < wrap360 raw → get_segment_angle raw = wrap360 raw - 270) := by
  simp only [get_segment_angle, wrap360]
  split_ifs <;>
    refine ⟨fun h => ?_, fun h h' => ?_, fun h h' => ?_, fun h => ?_⟩ <;>
    first
      | rfl
      | linarith

/-- C5 amended witness at the concrete raw angle -30. -/
theorem c5_fold_amended_witness :
    get_segment_angle (-30) = wrap360 (-30) - 270 :=
  (c5_fold_amended (-30) (by norm_num) (by norm_num)).2.2.2 (by with_unfolding_all decide)

/-! ## Claim C6 -/

/-- C6: for every frame of every input sequence (each frame either missing
or carrying raw left/right atan2 angles in the atan2 range (-180, 180]),
each per-frame torso, quad and ankle angle is either missing or lies in
[0, 90] degrees. -/
theorem c6_angle_range (tf qf af : List (Option (ℚ × ℚ)))
    (ht : ∀ o ∈ tf, ∀ lr : ℚ × ℚ, o = some lr →
      (-180 < lr.1 ∧ lr.1 ≤ 180) ∧ (-180 < lr.2 ∧ lr.2 ≤ 180))
    (hq : ∀ o ∈ qf, ∀ lr : ℚ × ℚ, o = some lr →
      (-180 < lr.1 ∧ lr.1 ≤ 180) ∧ (-180 < lr.2 ∧ lr.2 ≤ 180))
    (ha : ∀ o ∈ af, ∀ lr : ℚ × ℚ, o = some lr →
      (-180 < lr.1 ∧ lr.1 ≤ 180) ∧ (-180 < lr.2 ∧ lr.2 ≤ 180)) :
    (∀ o ∈ calculate_torso_angle_per_frame tf, ∀ q : ℚ, o = some q → 0 ≤ q ∧ q ≤ 90) ∧
    (∀ o ∈ calculate_quad_angle_per_frame qf, ∀ q : ℚ, o = some q → 0 ≤ q ∧ q ≤ 90) ∧
    (∀ o ∈ calculate_ankle_angle_per_frame af, ∀ q : ℚ, o = some q → 0 ≤ q ∧ q ≤ 90) := by
  refine ⟨?_, ?_, ?_⟩
  · intro o ho q hq2
    simp only [calculate_torso_angle_per_frame, List.mem_map] at ho
    obtain ⟨o2, ho2, rfl⟩ := ho
    cases o2 with
    | none => simp at hq2
    | some lr =>
      have hval : (get_segment_angle lr.1 + get_segment_angle lr.2) / 2 = q := by
        simpa using hq2
      obtain ⟨⟨a1, a2⟩, ⟨b1, b2⟩⟩ := ht (some lr) ho2 lr rfl
      have g1 := get_segment_angle_bounds lr.1 a1 a2
      have g2 := get_segment_angle_bounds lr.2 b1 b2
      constructor <;> (rw [hval.symm]; linarith [g1.1, g1.2, g2.1, g2.2])
  · intro o ho q hq2
    simp only [calculate_quad_angle_per_frame, List.mem_map] at ho
    obtain ⟨o2, ho2, rfl⟩ := ho
    cases o2 with
    | none => simp at hq2
    | some lr =>
      have hval : (get_segment_angle lr.1 + get_segment_angle lr.2) / 2 = q := by
        simpa using hq2
      obtain ⟨⟨a1, a2⟩, ⟨b1, b2⟩⟩ := hq (some lr) ho2 lr rfl
      have g1 := get_segment_angle_bounds lr.1 a1 a2
      have g2 := get_segment_angle_bounds lr.2 b1 b2
      constructor <;> (rw [hval.symm]; linarith [g1.1, g1.2, g2.1, g2.2])
  · intro o ho q hq2
    simp only [calculate_ankle_angle_per_frame, List.mem_map] at ho
    obtain ⟨o2, ho2, rfl⟩ := ho
    cases o2 with
    | none => simp at hq2
    | some lr =>
      have hval : (get_ankle_segment_angle lr.1 + get_ankle_segment_angle lr.2) / 2 = q := by
        simpa using hq2
      obtain ⟨⟨a1, a2⟩, ⟨b1, b2⟩⟩ := ha (some lr) ho2 lr rfl
      have g1 := get_ankle_segment_angle_bounds lr.1 a1 a2
      have g2 := get_ankle_segment_angle_bounds lr.2 b1 b2
      constructor <;> (rw [hval.symm]; linarith [g1.1, g1.2, g2.1, g2.2])

/-- C6 witness: a concrete torso frame with raw angles (45, -45) yields the
per-frame angle 45, inside [0, 90]. -/
theorem c6_angle_range_witness : (0 : ℚ) ≤ 45 ∧ (45 : ℚ) ≤ 90 :=
  (c6_angle_range [some (45, -45)] [none] [some (100, -100)]
      (by intro o ho lr h; simp at ho; rw [ho] at h; injection h with h2; rw [h2.symm]; norm_num)
      (by intro o ho lr h; simp at ho; rw [ho] at h; exact absurd h (by simp))
      (by intro o ho lr h; simp at ho; rw [ho] at h; injection h with h2; rw [h2.symm]; norm_num)).1
    (some 45) (by with_unfolding_all decide) 45 rfl

/-! ## Claim C4 -/

/-- C4 counterexample: candidates at frames 0 (angle 50) and 10 (angle 40),
10 frames apart with minimum distance 30.  The claim predicts the pair
merges keeping the later frame, i.e. result [(10, 40)]; the source keeps
the earlier, higher peak [(0, 50)] because the new candidate's angle is not
strictly greater. -/
theorem c4_counterexample :
    filter_peaks_by_distance [(0, (0, 50)), (10, (10, 40))] 30 = [(0, 50)] ∧
    filter_peaks_by_distance [(0, (0, 50)), (10, (10, 40))] 30 ≠ [(10, 40)] := by
  with_unfolding_all decide

/-- C4 amended: during the deduplication scan, a new candidate closer than
the minimum distance to the previously accepted peak replaces it (keeping
the later frame) only when its angle is strictly greater; otherwise it is
dropped and the earlier peak kept.  In neither case does it start a new
accepted peak. -/
theorem c4_dedup_close (minDistance : ℕ) (last c : ℕ × (ℕ × ℚ)) (cs : List (ℕ × (ℕ × ℚ)))
    (hclose : (c.1 : ℤ) - (last.1 : ℤ) < (minDistance : ℤ)) :
    dedupGo minDistance last (c :: cs) =
      if last.2.2 < c.2.2 then dedupGo minDistance c cs else dedupGo minDistance last cs := by
  rw [dedupGo]
  rw [if_neg (by omega)]

/-- C4 amended witness: the concrete close pair of the counterexample,
where the lower-angle later candidate is dropped. -/
theorem c4_dedup_close_witness :
    dedupGo 30 (0, (0, 50)) [(10, (10, 40))] =
      if ((0 : ℕ), ((0 : ℕ), (50 : ℚ))).2.2 < ((10 : ℕ), ((10 : ℕ), (40 : ℚ))).2.2 then
        dedupGo 30 (10, (10, 40)) [] else dedupGo 30 (0, (0, 50)) [] :=
  c4_dedup_close 30 (0, (0, 50)) (10, (10, 40)) [] (by omega)

/-! ## Claim C10 -/

/-- C10: when the detected phases contain zero reps, the active-phase
filter returns the torso series unchanged, and the exercise adapter's
extract_active_angles likewise returns its input unchanged on an empty
reps list. -/
theorem c10_zero_reps_identity (torso quad angles : List (Option ℚ))
    (h : detect_squat_phases quad 30 = []) :
    filter_to_active_phases torso quad = torso ∧ extract_active_angles angles [] = angles := by
  constructor
  · simp only [filter_to_active_phases, h]
    simp
  · simp [extract_active_angles]

/-- C10 witness: a one-frame all-missing quad series yields zero reps and
the torso series comes back unchanged. -/
theorem c10_zero_reps_identity_witness :
    filter_to_active_phases [some 5] [none] = [some 5] ∧
      extract_active_angles [some 7] [] = [some 7] :=
  c10_zero_reps_identity [some 5] [none] [some 7] (by with_unfolding_all decide)

/-! ## Claim C9 -/

/-- C9: calculate_final_score reads only the seven weighted metrics, so two
form-analysis mappings that agree on those — in particular two differing
only in ankle_angle and knee_valgus — produce identical results
(final_score, grade, component_scores and weights). -/
theorem c9_final_score_independent (fa1 fa2 : FormAnalysis)
    (h1 : fa1.torso_angle = fa2.torso_angle) (h2 : fa1.quad_angle = fa2.quad_angle)
    (h3 : fa1.glute_dominance = fa2.glute_dominance)
    (h4 : fa1.rep_consistency = fa2.rep_consistency)
    (h5 : fa1.torso_asymmetry = fa2.torso_asymmetry)
    (h6 : fa1.quad_asymmetry = fa2.quad_asymmetry)
    (h7 : fa1.ankle_asymmetry = fa2.ankle_asymmetry) :
    calculate_final_score fa1 = calculate_final_score fa2 := by
  simp only [calculate_final_score, finalWeights, List.foldl_cons, List.foldl_nil,
    finalScoreStep, getMetric, h1, h2, h3, h4, h5, h6, h7]

/-- C9 witness: the two concrete mappings differ in ankle_angle and
knee_valgus yet produce the same final-score record. -/
theorem c9_final_score_independent_witness :
    calculate_final_score faTwoHundreds = calculate_final_score faTwoHundredsB ∧
      faTwoHundreds.ankle_angle ≠ faTwoHundredsB.ankle_angle ∧
      faTwoHundreds.knee_valgus ≠ faTwoHundredsB.knee_valgus :=
  ⟨c9_final_score_independent faTwoHundreds faTwoHundredsB rfl rfl rfl rfl rfl rfl rfl,
    by with_unfolding_all decide, by with_unfolding_all decide⟩

/-! ## Claim C1 -/

/-- The loop of calculate_final_score accumulates exactly the present-score
weighted sum and the present weight, starting from any accumulator. -/
theorem finalScore_foldl_sums (fa : FormAnalysis) :
    ∀ (ws : List (MetricKey × ℚ)) (acc : ℚ × ℚ × List (MetricKey × ℚ)),
      (ws.foldl (finalScoreStep fa) acc).1 =
        acc.1 + (ws.filterMap (fun kw => (scoreOf fa kw.1).map (fun s => s * kw.2))).sum ∧
      (ws.foldl (finalScoreStep fa) acc).2.1 =
        acc.2.1 + (ws.filterMap (fun kw => (scoreOf fa kw.1).map (fun _ => kw.2))).sum := by
  intro ws
  induction ws with
  | nil => intro acc; simp
  | cons kw ws ih =>
    intro acc
    rcases hm : getMetric fa kw.1 with _ | os
    · have hstep : finalScoreStep fa acc kw = acc := by
        simp [finalScoreStep, hm]
      have hscore : scoreOf fa kw.1 = none := by
        simp [scoreOf, hm]
      simp only [List.foldl_cons, hstep, List.filterMap_cons, hscore, Option.map_none]
      exact ih acc
    · rcases os with _ | s
      · have hstep : finalScoreStep fa acc kw = acc := by
          simp [finalScoreStep, hm]
        have hscore : scoreOf fa kw.1 = none := by
          simp [scoreOf, hm]
        simp only [List.foldl_cons, hstep, List.filterMap_cons, hscore, Option.map_none]
        exact ih acc
      · have hstep : finalScoreStep fa acc kw =
            (acc.1 + s * kw.2, acc.2.1 + kw.2, acc.2.2 ++ [(kw.1, s)]) := by
          simp [finalScoreStep, hm]
        have hscore : scoreOf fa kw.1 = some s := by
          simp [scoreOf, hm]
        simp only [List.foldl_cons, hstep, List.filterMap_cons, hscore, Option.map_some,
          Option.map_some', List.sum_cons]
        constructor
        · rw [(ih _).1]; ring
        · rw [(ih _).2]; ring

/-- C1 amended: whenever at least one weighted metric carries a score,
final_score is the Python int truncation (for these nonnegative weights,
the floor) of the weighted average over the present metrics — not its
rounding.  Error-state and absent metrics contribute to neither sum. -/
theorem c1_truncated_mean (fa : FormAnalysis) (h : 0 < presentWeight fa) :
    (calculate_final_score fa).final_score =
      pyInt (presentWeightedSum fa / presentWeight fa) := by
  have hs := finalScore_foldl_sums fa finalWeights (0, 0, [])
  simp only [calculate_final_score]
  rw [hs.1, hs.2]
  simp only [zero_add]
  rw [if_pos]
  · rfl
  · exact h

/-- C1 counterexample: with torso 100 and quad 75 the only present metrics,
the weighted average is 87.5; the source truncates to 87 while the claimed
round gives 88. -/
theorem c1_counterexample :
    (calculate_final_score faHalfway).final_score = 87 ∧
    round (presentWeightedSum faHalfway / presentWeight faHalfway) = 88 ∧
    (calculate_final_score faHalfway).final_score ≠
      round (presentWeightedSum faHalfway / presentWeight faHalfway) := by
  refine ⟨by with_unfolding_all decide, ?_, ?_⟩ <;>
    rw [show presentWeightedSum faHalfway / presentWeight faHalfway = 175 / 2 by
      with_unfolding_all decide]
  · rw [round_eq]; norm_num
  · rw [round_eq]
    have h1 : (calculate_final_score faHalfway).final_score = 87 := by
      with_unfolding_all decide
    rw [h1]
    norm_num

/-- C1 witness: the spec example, torso 100 and quad 100 with every other
metric absent or in error state, yields exactly 100. -/
theorem c1_truncated_mean_witness :
    0 < presentWeight faTwoHundreds ∧
    (calculate_final_score faTwoHundreds).final_score =
      pyInt (presentWeightedSum faTwoHundreds / presentWeight faTwoHundreds) ∧
    (calculate_final_score faTwoHundreds).final_score = 100 :=
  ⟨by with_unfolding_all decide, c1_truncated_mean faTwoHundreds (by with_unfolding_all decide),
    by with_unfolding_all decide⟩

/-! ## Claim C7 -/

/-- C7 code bug: two identical per-rep values [5, 5] have mean 5,
standard deviation 0 and hence CV = 0 — by the claim (and by the status
function determine_consistency_status itself) a perfectly consistent
good/100 result — yet analyze_single_consistency guards with Python
truthiness `if cv`, which treats cv = 0.0 like cv None, and returns the
error result with score 0. -/
theorem c7_cv_zero_bug :
    analyze_single_consistency [5, 5] = ("error", 0) ∧
    determine_consistency_status (some 0) = ("good", 100) ∧
    calculate_consistency_metrics [5, 5] = (some 5, some 0, some 0) := by
  have hm : calculate_consistency_metrics [5, 5] = (some 5, some 0, some 0) := by
    simp only [calculate_consistency_metrics]
    norm_num [Real.sqrt_zero]
  refine ⟨?_, ?_, hm⟩
  · simp only [analyze_single_consistency, hm]
    norm_num
  · simp only [determine_consistency_status]
    norm_num

/-! ## Claim C8 -/

/-- C8 code bug: the source sets velocity_threshold = 2.0 / fps but
compares the velocity |Δangle|×fps against it, so at fps = 2 a drift of
0.9 degrees per frame (velocity 1.8 °/s, below the claimed 2.0 °/s gate)
fires the detector: on slowDriftAngles it reports onset at frame 5, though
no frame in the window satisfies the claimed condition
|Δangle|×fps ≥ 2.0 (so per the claim the scan finds no onset and the
fallback start frame 0 would be returned). -/
theorem c8_velocity_threshold_bug :
    detect_movement_start_velocity slowDriftAngles 0 5 2 = 5 ∧
    onsetSpecCond slowDriftAngles 2 (calculate_smoothed_baseline slowDriftAngles 0 3) 1 = false ∧
    onsetSpecCond slowDriftAngles 2 (calculate_smoothed_baseline slowDriftAngles 0 3) 2 = false ∧
    onsetSpecCond slowDriftAngles 2 (calculate_smoothed_baseline slowDriftAngles 0 3) 3 = false ∧
    onsetSpecCond slowDriftAngles 2 (calculate_smoothed_baseline slowDriftAngles 0 3) 4 = false ∧
    onsetSpecCond slowDriftAngles 2 (calculate_smoothed_baseline slowDriftAngles 0 3) 5 = false := by
  with_unfolding_all decide

/-! ## Helper lemmas for the rep-segmenter invariants (claims C2, C3) -/

theorem validAngles_le (l : List (Option ℚ)) :
    ∀ (i : ℕ) (p : ℕ × ℚ), p ∈ validAngles l i → i ≤ p.1 := by
  induction l with
  | nil => intro i p hp; simp [validAngles] at hp
  | cons o rest ih =>
    intro i p hp
    cases o with
    | none =>
      have := ih (i + 1) p (by simpa [validAngles] using hp)
      omega
    | some a =>
      simp only [validAngles, List.mem_cons] at hp
      rcases hp with rfl | hp
      · exact le_refl _
      · have := ih (i + 1) p hp
        omega

theorem validAngles_pairwise (l : List (Option ℚ)) :
    ∀ i : ℕ, (validAngles l i).Pairwise (fun p q => p.1 < q.1) := by
  induction l with
  | nil => intro i; simp [validAngles]
  | cons o rest ih =>
    intro i
    cases o with
    | none => simpa [validAngles] using ih (i + 1)
    | some a =>
      simp only [validAngles, List.pairwise_cons]
      refine ⟨fun q hq => ?_, ih (i + 1)⟩
      have := validAngles_le rest (i + 1) q hq
      omega

theorem frames_mono (va : List (ℕ × ℚ)) (h : va.Pairwise (fun p q => p.1 < q.1))
    {i j : ℕ} (hi : i < va.length) (hj : j < va.length) (hij : i ≤ j) :
    (va.getD i (0, 0)).1 ≤ (va.getD j (0, 0)).1 := by
  rcases Nat.lt_or_ge i j with hlt | hge
  · have hp := List.pairwise_iff_get.mp h ⟨i, hi⟩ ⟨j, hj⟩ hlt
    rw [List.getD_eq_getElem va (0, 0) hi, List.getD_eq_getElem va (0, 0) hj]
    simpa using le_of_lt hp
  · have : i = j := le_antisymm hij hge
    subst this
    exact le_refl _

theorem frames_strict_mono (va : List (ℕ × ℚ)) (h : va.Pairwise (fun p q => p.1 < q.1))
    {i j : ℕ} (hi : i < va.length) (hj : j < va.length) (hij : i < j) :
    (va.getD i (0, 0)).1 < (va.getD j (0, 0)).1 := by
  have hp := List.pairwise_iff_get.mp h ⟨i, hi⟩ ⟨j, hj⟩ hij
  rw [List.getD_eq_getElem va (0, 0) hi, List.getD_eq_getElem va (0, 0) hj]
  simpa using hp

theorem lastBelowBefore_lt (va : List (ℕ × ℚ)) (th : ℚ) :
    ∀ k i, lastBelowBefore va th k = some i → i < k := by
  intro k
  induction k with
  | zero => intro i h; simp [lastBelowBefore] at h
  | succ k ih =>
    intro i h
    simp only [lastBelowBefore] at h
    split at h
    · injection h with h; omega
    · have := ih i h; omega

theorem lastBelowBefore_mono (va : List (ℕ × ℚ)) (th : ℚ) :
    ∀ k2 k1 i1, k1 ≤ k2 → lastBelowBefore va th k1 = some i1 →
      ∃ i2, lastBelowBefore va th k2 = some i2 ∧ i1 ≤ i2 := by
  intro k2
  induction k2 with
  | zero =>
    intro k1 i1 hk h
    have : k1 = 0 := by omega
    subst this
    simp [lastBelowBefore] at h
  | succ k ih =>
    intro k1 i1 hk h
    rcases Nat.eq_or_lt_of_le hk with rfl | hk2
    · exact ⟨i1, h, le_refl _⟩
    · have hk1k : k1 ≤ k := by omega
      simp only [lastBelowBefore]
      split
      · refine ⟨k, rfl, ?_⟩
        have := lastBelowBefore_lt va th k1 i1 h
        omega
      · exact ih k1 i1 hk1k h

theorem firstBelowIn_lt_length (th : ℚ) :
    ∀ (l : List (ℕ × ℚ)) n, firstBelowIn l th = some n → n < l.length := by
  intro l
  induction l with
  | nil => intro n h; simp [firstBelowIn] at h
  | cons p rest ih =>
    intro n h
    simp only [firstBelowIn] at h
    split at h
    · injection h with h
      simp only [List.length_cons]
      omega
    · rcases hr : firstBelowIn rest th with _ | m
      · rw [hr] at h; simp at h
      · rw [hr] at h
        simp only [Option.map_some'] at h
        injection h with h
        have := ih m hr
        simp only [List.length_cons]
        omega

theorem firstBelowFrom_bounds (va : List (ℕ × ℚ)) (th : ℚ) (j i : ℕ)
    (h : firstBelowFrom va th j = some i) : j ≤ i ∧ i < va.length := by
  simp only [firstBelowFrom] at h
  rcases hr : firstBelowIn (va.drop j) th with _ | n
  · rw [hr] at h; simp at h
  · rw [hr] at h
    simp only [Option.map_some'] at h
    have hn := firstBelowIn_lt_length th _ n hr
    rw [List.length_drop] at hn
    injection h with h
    omega

theorem dedupGo_sublist (md : ℕ) :
    ∀ (cs : List (ℕ × (ℕ × ℚ))) (last : ℕ × (ℕ × ℚ)),
      List.Sublist (dedupGo md last cs) (last :: cs) := by
  intro cs
  induction cs with
  | nil => intro last; simp [dedupGo]
  | cons c cs ih =>
    intro last
    rw [dedupGo]
    split
    · exact (ih c).cons₂ last
    · split
      · exact (ih c).cons last
      · exact (ih last).trans ((List.sublist_cons_self c cs).cons₂ last)

theorem bounceGo_sublist (bt : ℤ) :
    ∀ (cs : List (ℕ × (ℕ × ℚ))) (prev : ℕ × (ℕ × ℚ)),
      List.Sublist (bounceGo bt prev cs) (prev :: cs) := by
  intro cs
  induction cs with
  | nil => intro prev; simp [bounceGo]
  | cons c cs ih =>
    intro prev
    rw [bounceGo]
    split
    · exact (ih c).cons prev
    · exact (ih c).cons₂ prev

theorem isLocalMax_bounds (i : ℕ) (va : List (ℕ × ℚ)) (mh : ℚ)
    (h : isLocalMax i va mh = true) : 2 ≤ i ∧ i + 2 < va.length := by
  by_contra hc
  have : i < 2 ∨ va.length ≤ i + 2 := by omega
  rw [isLocalMax, if_pos this] at h
  exact Bool.false_ne_true h

theorem peakCandidates_mem (va : List (ℕ × ℚ)) (mh : ℚ) (x : ℕ × (ℕ × ℚ))
    (hx : x ∈ peakCandidates va mh) :
    x.1 < va.length ∧ x.2 = va.getD x.1 (0, 0) ∧ x.2 ∈ va := by
  simp only [peakCandidates, List.mem_filterMap] at hx
  obtain ⟨i, _hi, hif⟩ := hx
  split at hif
  · rename_i hmax
    injection hif with hif
    subst hif
    have hb := isLocalMax_bounds i va mh hmax
    have hlt : i < va.length := by omega
    refine ⟨hlt, rfl, ?_⟩
    rw [List.getD_eq_getElem va (0, 0) hlt]
    exact List.getElem_mem hlt
  · exact absurd hif (by simp)

theorem peakCandidates_pairwise (va : List (ℕ × ℚ)) (mh : ℚ)
    (hmono : va.Pairwise (fun p q => p.1 < q.1)) :
    (peakCandidates va mh).Pairwise (fun a b => a.2.1 < b.2.1) := by
  rw [peakCandidates, List.pairwise_filterMap]
  have hr := List.pairwise_lt_range' 2 (va.length - 4) 1
  refine hr.imp_of_mem ?_
  intro i j _ _ hij
  intro x hx y hy
  split at hx
  · rename_i hmaxi
    split at hy
    · rename_i hmaxj
      simp only [Option.mem_def] at hx hy
      injection hx with hx
      injection hy with hy
      subst hx
      subst hy
      have hbi := isLocalMax_bounds i va mh hmaxi
      have hbj := isLocalMax_bounds j va mh hmaxj
      exact frames_strict_mono va hmono (by omega) (by omega) hij
    · exact absurd hy (by simp)
  · exact absurd hx (by simp)

theorem findIdx_frame (va : List (ℕ × ℚ)) (pf : ℕ) (hex : ∃ x ∈ va, x.1 = pf) :
    va.findIdx (fun p => p.1 == pf) < va.length ∧
      (va.getD (va.findIdx (fun p => p.1 == pf)) (0, 0)).1 = pf := by
  have hex2 : ∃ x ∈ va, (fun p : ℕ × ℚ => p.1 == pf) x = true := by
    obtain ⟨x, hx, hfx⟩ := hex
    exact ⟨x, hx, by simpa using hfx⟩
  have hlt := List.findIdx_lt_length_of_exists hex2
  refine ⟨hlt, ?_⟩
  rw [List.getD_eq_getElem va (0, 0) hlt]
  have := @List.findIdx_getElem (ℕ × ℚ) (fun p => p.1 == pf) va hlt
  simpa using this

theorem find_rep_bounds (va : List (ℕ × ℚ)) (b th : ℚ) (pf : ℕ)
    (hmono : va.Pairwise (fun p q => p.1 < q.1))
    (hex : ∃ x ∈ va, x.1 = pf) :
    (find_rep_start_end va pf b th).1 ≤ pf ∧ pf ≤ (find_rep_start_end va pf b th).2 := by
  obtain ⟨hidx, hfr⟩ := findIdx_frame va pf hex
  have hpos : 0 < va.length := by omega
  simp only [find_rep_start_end]
  constructor
  · rcases hlb : lastBelowBefore va th (va.findIdx (fun p => p.1 == pf)) with _ | idown
    · simp only [hlb]
      calc (va.getD 0 (0, 0)).1
          ≤ (va.getD (va.findIdx (fun p => p.1 == pf)) (0, 0)).1 :=
            frames_mono va hmono hpos hidx (Nat.zero_le _)
        _ = pf := hfr
    · have hlt := lastBelowBefore_lt va th _ _ hlb
      simp only [hlb, if_pos (by omega : idown + 1 ≤ va.findIdx (fun p => p.1 == pf))]
      calc (va.getD (idown + 1) (0, 0)).1
          ≤ (va.getD (va.findIdx (fun p => p.1 == pf)) (0, 0)).1 :=
            frames_mono va hmono (by omega) hidx (by omega)
        _ = pf := hfr
  · rcases hfb : firstBelowFrom va th (va.findIdx (fun p => p.1 == pf) + 1) with _ | iup
    · simp only [hfb]
      calc pf = (va.getD (va.findIdx (fun p => p.1 == pf)) (0, 0)).1 := hfr.symm
        _ ≤ (va.getD (va.length - 1) (0, 0)).1 :=
            frames_mono va hmono hidx (by omega) (by omega)
    · obtain ⟨hge, hlt2⟩ := firstBelowFrom_bounds va th _ _ hfb
      simp only [hfb, if_pos (by omega : va.findIdx (fun p => p.1 == pf) ≤ iup - 1)]
      calc pf = (va.getD (va.findIdx (fun p => p.1 == pf)) (0, 0)).1 := hfr.symm
        _ ≤ (va.getD (iup - 1) (0, 0)).1 :=
            frames_mono va hmono hidx (by omega) (by omega)

theorem find_rep_start_mono (va : List (ℕ × ℚ)) (b th : ℚ) (pf1 pf2 : ℕ)
    (hmono : va.Pairwise (fun p q => p.1 < q.1))
    (hex1 : ∃ x ∈ va, x.1 = pf1) (hex2 : ∃ x ∈ va, x.1 = pf2) (hlt : pf1 < pf2) :
    (find_rep_start_end va pf1 b th).1 ≤ (find_rep_start_end va pf2 b th).1 := by
  obtain ⟨hidx1, hfr1⟩ := findIdx_frame va pf1 hex1
  obtain ⟨hidx2, hfr2⟩ := findIdx_frame va pf2 hex2
  have hpos : 0 < va.length := by omega
  have hpidx : va.findIdx (fun p => p.1 == pf1) < va.findIdx (fun p => p.1 == pf2) := by
    by_contra hc
    have hge : va.findIdx (fun p => p.1 == pf2) ≤ va.findIdx (fun p => p.1 == pf1) := by omega
    have := frames_mono va hmono hidx2 hidx1 hge
    rw [hfr1, hfr2] at this
    omega
  simp only [find_rep_start_end]
  rcases hlb1 : lastBelowBefore va th (va.findIdx (fun p => p.1 == pf1)) with _ | i1
  · simp only [hlb1]
    rcases hlb2 : lastBelowBefore va th (va.findIdx (fun p => p.1 == pf2)) with _ | i2
    · simp only [hlb2]
      exact le_refl _
    · have hi2 := lastBelowBefore_lt va th _ _ hlb2
      simp only [hlb2, if_pos (by omega : i2 + 1 ≤ va.findIdx (fun p => p.1 == pf2))]
      exact frames_mono va hmono hpos (by omega) (Nat.zero_le _)
  · have hi1 := lastBelowBefore_lt va th _ _ hlb1
    obtain ⟨i2, hlb2, hile⟩ :=
      lastBelowBefore_mono va th (va.findIdx (fun p => p.1 == pf2)) _ _ (by omega) hlb1
    have hi2 := lastBelowBefore_lt va th _ _ hlb2
    simp only [hlb1, hlb2,
      if_pos (by omega : i1 + 1 ≤ va.findIdx (fun p => p.1 == pf1)),
      if_pos (by omega : i2 + 1 ≤ va.findIdx (fun p => p.1 == pf2))]
    exact frames_mono va hmono (by omega) (by omega) (by omega)

theorem find_peaks_facts (va : List (ℕ × ℚ)) (mh : ℚ) (md : ℕ)
    (hmono : va.Pairwise (fun p q => p.1 < q.1)) :
    (∀ p ∈ find_peaks va mh md, p ∈ va) ∧
      (find_peaks va mh md).Pairwise (fun p q => p.1 < q.1) := by
  rw [find_peaks, filter_peaks_by_distance.eq_def]
  rcases hcand : peakCandidates va mh with _ | ⟨c, cs⟩
  · simp
  · have hsub := dedupGo_sublist md cs c
    have hpairc : (c :: cs).Pairwise (fun a b => a.2.1 < b.2.1) := by
      rw [hcand.symm]
      exact peakCandidates_pairwise va mh hmono
    constructor
    · intro p hp
      simp only [List.mem_map] at hp
      obtain ⟨x, hx, rfl⟩ := hp
      have hxc : x ∈ c :: cs := hsub.subset hx
      rw [hcand.symm] at hxc
      exact (peakCandidates_mem va mh x hxc).2.2
    · rw [List.pairwise_map]
      exact hpairc.sublist hsub

theorem filter_bounce_reps_sublist (l : List (ℕ × (ℕ × ℚ))) (bt : ℤ) :
    List.Sublist (filter_bounce_reps l bt) l := by
  rcases l with _ | ⟨p, ps⟩
  · simp [filter_bounce_reps]
  · rw [filter_bounce_reps]
    exact bounceGo_sublist bt ps p

theorem build_reps_invariants (fil : List (ℕ × (ℕ × ℚ))) (va : List (ℕ × ℚ)) (b th : ℚ)
    (hmono : va.Pairwise (fun p q => p.1 < q.1))
    (hmem : ∀ x ∈ fil, x.2 ∈ va)
    (hpair : fil.Pairwise (fun a1 a2 => a1.2.1 < a2.2.1)) :
    (∀ r ∈ build_reps_from_peaks fil va b th,
        r.start_frame ≤ r.bottom_frame ∧ r.bottom_frame ≤ r.end_frame) ∧
      (build_reps_from_peaks fil va b th).Pairwise
        (fun r1 r2 => r1.start_frame ≤ r2.start_frame ∧ r1.bottom_frame < r2.bottom_frame) := by
  constructor
  · intro r hr
    simp only [build_reps_from_peaks, List.mem_filterMap] at hr
    obtain ⟨pk, hpk, hif⟩ := hr
    split at hif
    · injection hif with hif
      subst hif
      have hb := find_rep_bounds va b th pk.2.1 hmono ⟨pk.2, hmem pk hpk, rfl⟩
      exact ⟨hb.1, hb.2⟩
    · exact absurd hif (by simp)
  · rw [build_reps_from_peaks, List.pairwise_filterMap]
    refine hpair.imp_of_mem ?_
    intro a1 a2 ha1 ha2 hab r1 hr1 r2 hr2
    simp only [Option.mem_def] at hr1 hr2
    split at hr1
    · injection hr1 with hr1
      subst hr1
      split at hr2
      · injection hr2 with hr2
        subst hr2
        refine ⟨?_, hab⟩
        exact find_rep_start_mono va b th a1.2.1 a2.2.1 hmono
          ⟨a1.2, hmem a1 ha1, rfl⟩ ⟨a2.2, hmem a2 ha2, rfl⟩ hab
      · exact absurd hr2 (by simp)
    · exact absurd hr1 (by simp)

/-! ## Claim C2 -/

/-- C2 amended: every rep detected by detect_squat_phases satisfies
start_frame ≤ bottom_frame ≤ end_frame, and the reps are ordered with
non-decreasing start_frame and strictly increasing bottom_frame.  The
non-overlap asserted by the claim does not hold (see the counterexample),
and start_frames need not be strictly ascending. -/
theorem c2_rep_invariants (quad : List (Option ℚ)) (fps : ℚ) :
    (∀ r ∈ detect_squat_phases quad fps,
        r.start_frame ≤ r.bottom_frame ∧ r.bottom_frame ≤ r.end_frame) ∧
      (detect_squat_phases quad fps).Pairwise
        (fun r1 r2 => r1.start_frame ≤ r2.start_frame ∧ r1.bottom_frame < r2.bottom_frame) := by
  simp only [detect_squat_phases]
  split_ifs with h1 h2
  · simp
  · simp
  · have hmono := validAngles_pairwise quad 0
    have hpk := find_peaks_facts (validAngles quad 0)
      (calcBaseline (validAngles quad 0) + 20) 30 hmono
    have hsub := filter_bounce_reps_sublist
      ((find_peaks (validAngles quad 0) (calcBaseline (validAngles quad 0) + 20) 30).map
        (fun p => ((validAngles quad 0).findIdx (fun q => q.1 == p.1), p)))
      (pyInt (fps * 1))
    refine build_reps_invariants _ _ _ _ hmono ?_ ?_
    · intro x hx
      have hx2 := hsub.subset hx
      simp only [List.mem_map] at hx2
      obtain ⟨p, hp, rfl⟩ := hx2
      exact hpk.1 p hp
    · refine List.Pairwise.sublist hsub ?_
      rw [List.pairwise_map]
      exact hpk.2

/-- C2 counterexample: on a 46-frame series whose quad angle stays above
the squat threshold between two accepted peaks (frames 12 and 42), the
detector returns two reps whose frame intervals [10, 43] coincide: the
second rep's start frame lies inside (indeed equals the start of) the
first rep's interval, so reps can overlap and start frames are not
strictly ascending. -/
theorem c2_overlap_counterexample :
    detect_squat_phases overlapQuad 30 = [⟨10, 12, 43⟩, ⟨10, 42, 43⟩] ∧
    (SquatRep.mk 10 42 43).start_frame ≤ (SquatRep.mk 10 12 43).end_frame ∧
    (SquatRep.mk 10 12 43).start_frame = (SquatRep.mk 10 42 43).start_frame := by
  refine ⟨by with_unfolding_all decide, by decide, by decide⟩

/-- C2 witness: the invariants evaluated on the concrete overlapping-rep
series. -/
theorem c2_rep_invariants_witness :
    ((SquatRep.mk 10 12 43).start_frame ≤ (SquatRep.mk 10 12 43).bottom_frame ∧
      (SquatRep.mk 10 12 43).bottom_frame ≤ (SquatRep.mk 10 12 43).end_frame) ∧
      (detect_squat_phases overlapQuad 30).Pairwise
        (fun r1 r2 => r1.start_frame ≤ r2.start_frame ∧ r1.bottom_frame < r2.bottom_frame) :=
  ⟨(c2_rep_invariants overlapQuad 30).1 ⟨10, 12, 43⟩ (by with_unfolding_all decide),
    (c2_rep_invariants overlapQuad 30).2⟩

/-! ## Claim C3 -/

/-- The earlier of two input-consecutive peaks meeting the merge condition
(index distance below the bounce threshold, later angle at least 0.9 of the
earlier) never survives the bounce filter. -/
theorem bounce_merge_removes_earlier :
    ∀ (l1 : List (ℕ × (ℕ × ℚ))) (a b : ℕ × (ℕ × ℚ)) (l2 : List (ℕ × (ℕ × ℚ))) (bt : ℤ),
      (l1 ++ a :: b :: l2).Pairwise (fun x y => x.1 < y.1) →
      (b.1 : ℤ) - (a.1 : ℤ) < bt → (9 / 10 : ℚ) * a.2.2 ≤ b.2.2 →
      a ∉ filter_bounce_reps (l1 ++ a :: b :: l2) bt := by
  intro l1
  induction l1 with
  | nil =>
    intro a b l2 bt hpair hclose hangle hmem
    simp only [List.nil_append] at hpair hmem
    rw [filter_bounce_reps] at hmem
    rw [bounceGo, if_pos ⟨hclose, hangle⟩] at hmem
    have hsub := (bounceGo_sublist bt l2 b).subset hmem
    have hhead := (List.pairwise_cons.mp hpair).1
    rcases List.mem_cons.mp hsub with heq | hmem2
    · subst heq
      exact absurd (hhead a (by simp)) (lt_irrefl _)
    · have hab := hhead b (by simp)
      have hb2 := (List.pairwise_cons.mp (List.pairwise_cons.mp hpair).2).1 a hmem2
      omega
  | cons h t ih =>
    intro a b l2 bt hpair hclose hangle hmem
    rw [List.cons_append] at hpair hmem
    rw [filter_bounce_reps] at hmem
    have hhead := (List.pairwise_cons.mp hpair).1
    have htail := (List.pairwise_cons.mp hpair).2
    have hha : h.1 < a.1 := hhead a (by simp)
    rcases ht : t ++ a :: b :: l2 with _ | ⟨c, cs⟩
    · exact absurd ht (by simp)
    · rw [ht] at hmem
      rw [bounceGo] at hmem
      have hrec : a ∉ bounceGo bt c cs := by
        intro hmem2
        refine ih a b l2 bt htail hclose hangle ?_
        rw [ht, filter_bounce_reps]
        exact hmem2
      split at hmem
      · exact hrec hmem
      · rcases List.mem_cons.mp hmem with heq | hmem2
        · rw [heq] at hha
          exact absurd hha (lt_irrefl _)
        · exact hrec hmem2

/-- C3 amended: in the bounce filter, two input-consecutive accepted peaks
whose valid-sample index distance is below int(fps times 1.0) and whose
later angle is at least 0.9 of the earlier are merged — the earlier peak
does not survive; and the spec example of two close peaks (frames 50 and
60 at 30 fps, second at 96 percent of the first) yields exactly one rep. -/
theorem c3_bounce_merge :
    (∀ (l1 : List (ℕ × (ℕ × ℚ))) (a b : ℕ × (ℕ × ℚ)) (l2 : List (ℕ × (ℕ × ℚ))) (bt : ℤ),
      (l1 ++ a :: b :: l2).Pairwise (fun x y => x.1 < y.1) →
      (b.1 : ℤ) - (a.1 : ℤ) < bt → (9 / 10 : ℚ) * a.2.2 ≤ b.2.2 →
      a ∉ filter_bounce_reps (l1 ++ a :: b :: l2) bt) ∧
    detect_squat_phases closePeaksQuad 30 = [⟨49, 50, 51⟩] :=
  ⟨bounce_merge_removes_earlier, by with_unfolding_all decide⟩

/-- C3 counterexample: at fps = 30.5 on the overlapQuad series, the two
accepted peaks sit at frames 12 and 42 — frame distance 30 < 30.5 = fps×1.0
with equal angles (so the 0.9 condition holds) — yet the bounce filter
(threshold int(30.5) = 30, and 30 < 30 fails) merges nothing and two reps
result, where the claim demands a single merged rep. -/
theorem c3_counterexample :
    find_peaks (validAngles overlapQuad 0) (calcBaseline (validAngles overlapQuad 0) + 20) 30
        = [(12, 50), (42, 50)] ∧
    ((42 : ℚ) - 12 < (61 / 2) * 1) ∧ ((9 / 10 : ℚ) * 50 ≤ 50) ∧
    filter_bounce_reps [(12, (12, 50)), (42, (42, 50))] (pyInt ((61 / 2) * 1))
        = [(12, (12, 50)), (42, (42, 50))] ∧
    (detect_squat_phases overlapQuad (61 / 2)).length = 2 := by
  with_unfolding_all decide

/-- C3 amended witness: the concrete close pair at bounce threshold 31,
where the earlier peak is merged away. -/
theorem c3_bounce_merge_witness :
    ((12 : ℕ), ((12 : ℕ), (50 : ℚ))) ∉
      filter_bounce_reps [(12, (12, 50)), (42, (42, 50))] 31 :=
  c3_bounce_merge.1 [] (12, (12, 50)) (42, (42, 50)) [] 31
    (by with_unfolding_all decide) (by decide) (by with_unfolding_all decide)
